import Mathlib

/-!
Shallow embedding of `connectomics/model/unet.py` (classes `UNet3D` and
`UNet2D`) and proofs of the specified properties.

The layer factories `conv3d_norm_act`, `residual_block_3d`,
`residual_se_block_3d` and the helpers `get_functional_act`, `model_init`
are imported by `unet.py` from `block.py` / `utils.py`, which are not part
of the sources under verification.  They are modelled as opaque layer
descriptors (constructors of `Layer`) and symbolic tensor operations
(constructors of `Tensor`): every claim below is about which units the
U-Net places where and how `forward` threads a tensor through them, not
about the numerical kernels inside those units.  `model_init` only
initialises numeric weights, which the descriptors do not carry.
-/

namespace PytorchConnectomics

/-- A Python value that is either a plain `int` or a 3-tuple of ints, as
used for kernel sizes, strides and downsample factors in `unet.py`
(PyTorch broadcasts a scalar over the three spatial axes). -/
inductive ScalarOrTriple where
  | scalar (n : Nat)
  | triple (a b c : Nat)
deriving DecidableEq, Repr, Inhabited

/-- Python exceptions that the constructor code can raise. -/
inductive PyError where
  | assertionError
  | typeError (msg : String)
  | keyError (key : String)
  | indexError
deriving DecidableEq, Repr, Inhabited

/-- Opaque descriptor of one layer object placed in the network.
`conv3d_norm_act` and the residual blocks come from `block.py` (not under
verification); only their configuration arguments are recorded. -/
inductive Layer where
  | identity
  | maxPool3d (kernel_size stride : ScalarOrTriple)
  | conv3d_norm_act (in_c out_c : Nat) (kernel : Nat × Nat × Nat)
      (stride : ScalarOrTriple) (padding : Nat × Nat × Nat)
      (pad_mode act_mode norm_mode : String)
  | block (block_type : String) (in_c out_c : Nat)
      (pad_mode act_mode norm_mode : String)
deriving DecidableEq, Repr, Inhabited

/-- One encoder stage: the `nn.Sequential(pooling, conv, block)` built in
the `down_layers` loop of `UNet3D.__init__`. -/
structure DownStage where
  pool : Layer
  conv : Layer
  block : Layer
deriving DecidableEq, Repr, Inhabited

/-- One decoder stage: the `nn.ModuleList([conv, block])` built in the
`up_layers` loop of `UNet3D.__init__`. -/
structure UpStage where
  conv : Layer
  block : Layer
deriving DecidableEq, Repr, Inhabited

/-- The fields that `UNet3D.__init__` sets on `self`. -/
structure UNet3D where
  pooling : Bool
  output_act : String
  depth : Nat
  conv_in : Layer
  conv_out : Layer
  down_layers : List DownStage
  up_layers : List UpStage
deriving DecidableEq, Repr, Inhabited

/-- `UNet3D._get_kernal_size(is_isotropic, io_layer)`: kernel size and
padding triple. -/
def get_kernal_size (is_isotropic : Bool) (io_layer : Bool) :
    (Nat × Nat × Nat) × (Nat × Nat × Nat) :=
  if io_layer then
    if is_isotropic then ((5, 5, 5), (2, 2, 2))
    else ((1, 5, 5), (0, 2, 2))
  else
    if is_isotropic then ((3, 3, 3), (1, 1, 1))
    else ((1, 3, 3), (0, 1, 1))

/-- `UNet3D._get_downsample(is_isotropic)`: `(1,2,2)` for anisotropic
stages, the scalar `2` for isotropic ones. -/
def get_downsample (is_isotropic : Bool) : ScalarOrTriple :=
  if ¬ is_isotropic then ScalarOrTriple.triple 1 2 2
  else ScalarOrTriple.scalar 2

/-- `UNet3D._get_stride(is_isotropic, previous, i)`; `self.pooling` is
passed explicitly since it is fixed before the method is called. -/
def get_stride (pooling : Bool) (is_isotropic : Bool) (previous i : Nat) :
    ScalarOrTriple :=
  if pooling ∨ previous = i then ScalarOrTriple.scalar 1
  else get_downsample is_isotropic

/-- `UNet3D._make_pooling_layer(is_isotropic, previous, i)`. -/
def make_pooling_layer (pooling : Bool) (is_isotropic : Bool)
    (previous i : Nat) : Layer :=
  if pooling ∧ previous ≠ i then
    Layer.maxPool3d (get_downsample is_isotropic) (get_downsample is_isotropic)
  else Layer.identity

/-- Body of the `down_layers` loop in `UNet3D.__init__` at index `i`
(list indexing is in bounds there because `i < len(filters)` and
`len(filters) == len(isotropy)` is asserted). -/
def makeDownLayer (pooling : Bool) (filters : List Nat) (isotropy : List Bool)
    (block_type pad_mode act_mode norm_mode : String) (i : Nat) : DownStage :=
  let iso := isotropy.getD i false
  let kp := get_kernal_size iso false
  let previous := max 0 (i - 1)
  DownStage.mk
    (make_pooling_layer pooling iso previous i)
    (Layer.conv3d_norm_act (filters.getD previous 0) (filters.getD i 0)
      kp.1 (get_stride pooling iso previous i) kp.2
      pad_mode act_mode norm_mode)
    (Layer.block block_type (filters.getD i 0) (filters.getD i 0)
      pad_mode act_mode norm_mode)

/-- Body of the `up_layers` loop in `UNet3D.__init__` at index `j`
(`conv3d_norm_act` keeps its default stride `1` there). -/
def makeUpLayer (filters : List Nat) (isotropy : List Bool)
    (block_type pad_mode act_mode norm_mode : String) (j : Nat) : UpStage :=
  let iso := isotropy.getD j false
  let kp := get_kernal_size iso false
  UpStage.mk
    (Layer.conv3d_norm_act (filters.getD j 0) (filters.getD (j - 1) 0)
      kp.1 (ScalarOrTriple.scalar 1) kp.2 pad_mode act_mode norm_mode)
    (Layer.block block_type (filters.getD (j - 1) 0) (filters.getD (j - 1) 0)
      pad_mode act_mode norm_mode)

/-- `UNet3D.__init__`, statement by statement.  The unused `head_depth`
parameter and `**kwargs` are omitted.  Order of the raising statements
follows the source: the `assert len(filters) == len(isotropy)` on
line 52; then, when `is_isotropic` is true, line 54 evaluates
`[True for _ in len(isotropy)]`, which iterates over an `int` and raises
`TypeError`; then `self.block_dict[block_type]` (line 60) raises
`KeyError` for an unknown block type; then `filters[0]` in the
construction of `conv_in` (line 69) raises `IndexError` when `filters`
is empty. -/
def UNet3D.init (block_type : String) (in_channel out_channel : Nat)
    (filters : List Nat) (is_isotropic : Bool) (isotropy : List Bool)
    (pad_mode act_mode norm_mode : String) (pooling : Bool)
    (output_act : String) : Except PyError UNet3D :=
  if filters.length ≠ isotropy.length then
    Except.error PyError.assertionError
  else if is_isotropic then
    Except.error (PyError.typeError "argument of type int is not iterable")
  else if ¬ (block_type = "residual" ∨ block_type = "residual_se") then
    Except.error (PyError.keyError block_type)
  else if filters.length = 0 then
    Except.error PyError.indexError
  else
    let depth := filters.length
    let kpio := get_kernal_size is_isotropic true
    Except.ok
      (UNet3D.mk pooling output_act depth
        (Layer.conv3d_norm_act in_channel (filters.getD 0 0) kpio.1
          (ScalarOrTriple.scalar 1) kpio.2 pad_mode act_mode norm_mode)
        (Layer.conv3d_norm_act (filters.getD 0 0) out_channel kpio.1
          (ScalarOrTriple.scalar 1) kpio.2 pad_mode "none" "none")
        ((List.range depth).map
          (makeDownLayer pooling filters isotropy block_type
            pad_mode act_mode norm_mode))
        ((List.range' 1 (depth - 1)).map
          (makeUpLayer filters isotropy block_type
            pad_mode act_mode norm_mode)))

/-- Symbolic tensors: the forward pass is recorded as a term.  `pyNone`
models the `None` entries that pre-fill the `down_x` list in
`UNet3D.forward`; `interpolate` records `F.interpolate(t, size=
sizeFrom.shape[2:], mode, align_corners)`; `funAct` records the
application of `get_functional_act(name)`. -/
inductive Tensor where
  | input (n : Nat)
  | pyNone
  | app (l : Layer) (t : Tensor)
  | interpolate (mode : String) (sizeFrom : Tensor) (alignCorners : Bool)
      (t : Tensor)
  | add (x y : Tensor)
  | funAct (name : String) (t : Tensor)
deriving DecidableEq, Repr, Inhabited

/-- Applying an encoder stage (an `nn.Sequential` of pooling, conv,
block) to a tensor. -/
def applyDownStage (s : DownStage) (t : Tensor) : Tensor :=
  Tensor.app s.block (Tensor.app s.conv (Tensor.app s.pool t))

/-- `UNet3D._upsample_add(x, y)`:
`align_corners = False if self.pooling else True`, then
`F.interpolate(x, size=y.shape[2:], mode='trilinear', align_corners)`,
then `x + y`. -/
def UNet3D.upsample_add (m : UNet3D) (x y : Tensor) : Tensor :=
  let align_corners := if m.pooling then false else true
  Tensor.add (Tensor.interpolate "trilinear" y align_corners x) y

/-- `UNet3D.forward(x)`, statement by statement.  The loop
`for i in range(self.depth-1)` threads `x` through `down_layers[i]` and
writes the result into slot `i` of `down_x` (pre-filled with `None`);
then `x = self.down_layers[-1](x)`; the decoder loop
`for j in range(self.depth-1)` uses `i = self.depth-2-j`; finally
`conv_out` and the functional output activation. -/
def UNet3D.forward (m : UNet3D) (x : Tensor) : Tensor :=
  let x0 := Tensor.app m.conv_in x
  let s1 : Tensor × List Tensor :=
    (List.range (m.depth - 1)).foldl
      (fun s i =>
        let x1 := applyDownStage (m.down_layers.getD i default) s.1
        (x1, s.2.set i x1))
      (x0, List.replicate (m.depth - 1) Tensor.pyNone)
  let x2 := applyDownStage (m.down_layers.getLast?.getD default) s1.1
  let x3 :=
    (List.range (m.depth - 1)).foldl
      (fun x j =>
        let i := m.depth - 2 - j
        let xa := Tensor.app (m.up_layers.getD i default).conv x
        let xb := m.upsample_add xa (s1.2.getD i Tensor.pyNone)
        Tensor.app (m.up_layers.getD i default).block xb)
      x2
  Tensor.funAct m.output_act (Tensor.app m.conv_out x3)

/-- `UNet3D.forward` with `self` threaded through every statement, to
state the frame property: no statement of the method assigns to a field
of `self`, so the model component is passed along unchanged. -/
def UNet3D.forwardS (m : UNet3D) (x : Tensor) : UNet3D × Tensor :=
  let p0 : UNet3D × Tensor := (m, Tensor.app m.conv_in x)
  let s1 : UNet3D × Tensor × List Tensor :=
    (List.range (p0.1.depth - 1)).foldl
      (fun s i =>
        let x1 := applyDownStage (s.1.down_layers.getD i default) s.2.1
        (s.1, x1, s.2.2.set i x1))
      (p0.1, p0.2, List.replicate (p0.1.depth - 1) Tensor.pyNone)
  let p2 : UNet3D × Tensor :=
    (s1.1, applyDownStage (s1.1.down_layers.getLast?.getD default) s1.2.1)
  let p3 : UNet3D × Tensor :=
    (List.range (p2.1.depth - 1)).foldl
      (fun p j =>
        let i := p.1.depth - 2 - j
        let xa := Tensor.app (p.1.up_layers.getD i default).conv p.2
        let xb := p.1.upsample_add xa (s1.2.2.getD i Tensor.pyNone)
        (p.1, Tensor.app (p.1.up_layers.getD i default).block xb))
      p2
  (p3.1, Tensor.funAct p3.1.output_act (Tensor.app p3.1.conv_out p3.2))

/-- The 2D variant: `UNet2D.__init__(self): pass` sets no attributes, so
the structure has no fields. -/
structure UNet2D where
deriving DecidableEq, Repr, Inhabited

/-- Calling `UNet2D(...)` with a list of keyword-argument names: since
`__init__` is declared as `def __init__(self)`, any keyword raises
`TypeError`; a bare call succeeds and builds nothing. -/
def UNet2D.initCall (kwargNames : List String) : Except PyError UNet2D :=
  if kwargNames = [] then Except.ok UNet2D.mk
  else Except.error (PyError.typeError "got an unexpected keyword argument")

/-- Threading a tensor through a list of encoder stages in ascending
order (spec-side view of the encoder pass). -/
def encodeThread (stages : List DownStage) (x : Tensor) : Tensor :=
  stages.foldl (fun x s => applyDownStage s x) x

/-- The list of per-stage outputs of the encoder pass, in stage order
(spec-side view of forward's `down_x`, extended with the bottleneck
output at the end). -/
def encodeOutputs : List DownStage → Tensor → List Tensor
  | [], _ => []
  | s :: rest, x =>
    let x1 := applyDownStage s x
    x1 :: encodeOutputs rest x1

/-- Spec-side view of the decoder pass: the list pairs decoder stage `i`
with the stored encoder output `i`, in ascending order; the stages are
applied from the last pair (highest resolution level below the
bottleneck) down to pair `0`.  Each stage applies its convolution, then
the upsample-and-add with the stored encoder output, then its block. -/
def decodeStages (m : UNet3D) (pairs : List (UpStage × Tensor))
    (x : Tensor) : Tensor :=
  pairs.foldr
    (fun p x =>
      Tensor.app p.1.block (m.upsample_add (Tensor.app p.1.conv x) p.2))
    x

/-- The forward computation as the claim states it: `conv_in`, all
encoder stages in ascending order storing the outputs of all but the
last stage, the decoder stages from index `depth-2` down to `0` each
combined with its stored encoder output, `conv_out`, and the output
activation. -/
def forwardSpec (m : UNet3D) (x : Tensor) : Tensor :=
  let x0 := Tensor.app m.conv_in x
  let outs := encodeOutputs m.down_layers x0
  let xe := encodeThread m.down_layers x0
  let xd := decodeStages m (m.up_layers.zip outs.dropLast) xe
  Tensor.funAct m.output_act (Tensor.app m.conv_out xd)

/-- A concrete construction used by the witnesses: two stages, strided
downsampling. -/
def demoModel : UNet3D :=
  (UNet3D.init "residual" 1 3 [28, 36] false [false, true]
      "replicate" "elu" "bn" false "sigmoid").toOption.getD default

/-- A concrete construction used by the witnesses: three stages with
max-pooling downsampling. -/
def demoModelPool : UNet3D :=
  (UNet3D.init "residual_se" 2 3 [28, 36, 48] false [false, false, true]
      "zeros" "relu" "in" true "softmax").toOption.getD default

/-- The stride recorded in a `conv3d_norm_act` descriptor. -/
def Layer.convStride : Layer → Option ScalarOrTriple
  | Layer.conv3d_norm_act _ _ _ s _ _ _ _ => some s
  | _ => none

/-- The `(in, out)` channel pair recorded in a `conv3d_norm_act`
descriptor. -/
def Layer.convChannels : Layer → Option (Nat × Nat)
  | Layer.conv3d_norm_act i o _ _ _ _ _ _ => some (i, o)
  | _ => none

/-- The kernel and padding recorded in a `conv3d_norm_act` descriptor. -/
def Layer.convKernelPad : Layer → Option ((Nat × Nat × Nat) × (Nat × Nat × Nat))
  | Layer.conv3d_norm_act _ _ k _ p _ _ _ => some (k, p)
  | _ => none

/-- The block type and `(in, out)` channels recorded in a residual-block
descriptor. -/
def Layer.blockChannels : Layer → Option (String × Nat × Nat)
  | Layer.block bt i o _ _ _ => some (bt, i, o)
  | _ => none

lemma encodeOutputs_length (l : List DownStage) (x : Tensor) :
    (encodeOutputs l x).length = l.length := by
  induction l generalizing x with
  | nil => rfl
  | cons s rest ih => simp [encodeOutputs, ih]

lemma encodeThread_concat (l : List DownStage) (s : DownStage) (x : Tensor) :
    encodeThread (l ++ [s]) x = applyDownStage s (encodeThread l x) := by
  simp [encodeThread]

lemma encodeOutputs_concat (l : List DownStage) (s : DownStage) (x : Tensor) :
    encodeOutputs (l ++ [s]) x
      = encodeOutputs l x ++ [applyDownStage s (encodeThread l x)] := by
  induction l generalizing x with
  | nil => simp [encodeOutputs, encodeThread]
  | cons a rest ih => simp [encodeOutputs, encodeThread, ih, List.foldl_cons]

lemma map_getD_range {α : Type} (l : List α) (d : α) (n : Nat)
    (hn : n ≤ l.length) :
    (List.range n).map (fun i => l.getD i d) = l.take n := by
  induction n with
  | zero => simp
  | succ k ih =>
    have hk : k ≤ l.length := Nat.le_of_succ_le hn
    have hklt : k < l.length := hn
    rw [List.range_succ, List.map_append, ih hk, List.take_succ]
    simp [List.getElem?_eq_getElem hklt]

lemma enc_loop (l : List DownStage) (n : Nat) (hn : n ≤ l.length)
    (x0 : Tensor) (buf : List Tensor) (hb : n ≤ buf.length) :
    (List.range n).foldl
      (fun s i =>
        let x1 := applyDownStage (l.getD i default) s.1
        (x1, s.2.set i x1))
      (x0, buf)
      = (encodeThread (l.take n) x0,
         encodeOutputs (l.take n) x0 ++ buf.drop n) := by
  induction n with
  | zero => simp [encodeThread, encodeOutputs]
  | succ k ih =>
    have hk : k ≤ l.length := Nat.le_of_succ_le hn
    have hklt : k < l.length := hn
    have hkb : k ≤ buf.length := Nat.le_of_succ_le hb
    have hkblt : k < buf.length := hb
    rw [List.range_succ, List.foldl_append, ih hk hkb]
    have hlen : (encodeOutputs (l.take k) x0).length = k := by
      rw [encodeOutputs_length, List.length_take, Nat.min_eq_left hk]
    have htk : l.take (k + 1) = l.take k ++ [l.getD k default] := by
      rw [List.take_succ]
      simp [List.getElem?_eq_getElem hklt]
    rw [htk, encodeThread_concat, encodeOutputs_concat]
    simp only [List.foldl_cons, List.foldl_nil]
    refine Prod.ext rfl ?_
    simp only
    rw [List.set_append_right _ _ (le_of_eq hlen), hlen, Nat.sub_self,
      List.drop_eq_getElem_cons hkblt, List.set_cons_zero, List.append_assoc,
      List.singleton_append]

lemma encodeOutputs_take (l : List DownStage) (n : Nat) (x : Tensor) :
    encodeOutputs (l.take n) x = (encodeOutputs l x).take n := by
  induction l generalizing n x with
  | nil => simp [encodeOutputs]
  | cons s rest ih =>
    cases n with
    | zero => simp [encodeOutputs]
    | succ k => simp [encodeOutputs, ih]

lemma rev_range_foldl {β : Type} (n : Nat) (g : Nat → β → β) (x0 : β) :
    (List.range n).foldl (fun x j => g (n - 1 - j) x) x0
      = (List.range n).foldr (fun i x => g i x) x0 := by
  have h1 : (List.range n).map (fun j => n - 1 - j) = (List.range n).reverse := by
    have h0 := List.reverse_range' 0 n
    rw [← List.range_eq_range'] at h0
    simpa using h0.symm
  have h2 := List.foldl_map (fun j => n - 1 - j) (fun (x : β) i => g i x)
    (List.range n) x0
  rw [h1, List.foldl_reverse] at h2
  exact h2.symm

lemma dec_loop (m : UNet3D) (outs : List Tensor)
    (hu : m.up_layers.length = m.depth - 1)
    (ho : outs.length = m.depth - 1) (x : Tensor) :
    (List.range (m.depth - 1)).foldl
      (fun x j =>
        Tensor.app (m.up_layers.getD (m.depth - 2 - j) default).block
          (m.upsample_add
            (Tensor.app (m.up_layers.getD (m.depth - 2 - j) default).conv x)
            (outs.getD (m.depth - 2 - j) Tensor.pyNone)))
      x
      = decodeStages m (m.up_layers.zip outs) x := by
  have hidx : ∀ j : Nat, m.depth - 2 - j = m.depth - 1 - 1 - j := by
    intro j; omega
  simp only [hidx]
  have hmap : (List.range (m.depth - 1)).map
      (fun i => (m.up_layers.getD i default, outs.getD i Tensor.pyNone))
        = m.up_layers.zip outs := by
    rw [← List.zip_map' (fun i => m.up_layers.getD i default)
      (fun i => outs.getD i Tensor.pyNone) (List.range (m.depth - 1)),
      map_getD_range m.up_layers default (m.depth - 1) (le_of_eq hu.symm),
      map_getD_range outs Tensor.pyNone (m.depth - 1) (le_of_eq ho.symm),
      List.take_of_length_le (le_of_eq hu),
      List.take_of_length_le (le_of_eq ho)]
  calc
    (List.range (m.depth - 1)).foldl
        (fun x j =>
          Tensor.app (m.up_layers.getD (m.depth - 1 - 1 - j) default).block
            (m.upsample_add
              (Tensor.app
                (m.up_layers.getD (m.depth - 1 - 1 - j) default).conv x)
              (outs.getD (m.depth - 1 - 1 - j) Tensor.pyNone)))
        x
      = (List.range (m.depth - 1)).foldr
          (fun i x =>
            Tensor.app (m.up_layers.getD i default).block
              (m.upsample_add
                (Tensor.app (m.up_layers.getD i default).conv x)
                (outs.getD i Tensor.pyNone)))
          x :=
        rev_range_foldl (m.depth - 1)
          (fun i x =>
            Tensor.app (m.up_layers.getD i default).block
              (m.upsample_add
                (Tensor.app (m.up_layers.getD i default).conv x)
                (outs.getD i Tensor.pyNone)))
          x
    _ = ((List.range (m.depth - 1)).map
          (fun i => (m.up_layers.getD i default,
            outs.getD i Tensor.pyNone))).foldr
          (fun p x =>
            Tensor.app p.1.block
              (m.upsample_add (Tensor.app p.1.conv x) p.2))
          x :=
        (List.foldr_map
          (fun i => (m.up_layers.getD i default, outs.getD i Tensor.pyNone))
          (fun p x =>
            Tensor.app p.1.block
              (m.upsample_add (Tensor.app p.1.conv x) p.2))
          (List.range (m.depth - 1)) x).symm
    _ = decodeStages m (m.up_layers.zip outs) x := by
        rw [hmap]; rfl

lemma forward_eq_general (m : UNet3D)
    (hdl : m.down_layers.length = m.depth)
    (hul : m.up_layers.length = m.depth - 1)
    (hd : 1 ≤ m.depth) (x : Tensor) :
    m.forward x = forwardSpec m x := by
  have hn : m.depth - 1 ≤ m.down_layers.length := by omega
  have hb : m.depth - 1 ≤ (List.replicate (m.depth - 1) Tensor.pyNone).length := by
    simp
  have henc := enc_loop m.down_layers (m.depth - 1) hn
    (Tensor.app m.conv_in x) (List.replicate (m.depth - 1) Tensor.pyNone) hb
  have hdrop : (List.replicate (m.depth - 1) Tensor.pyNone).drop (m.depth - 1)
      = [] := by simp
  rw [hdrop, List.append_nil] at henc
  have hlast : m.down_layers.getLast?.getD default
      = m.down_layers.getD (m.depth - 1) default := by
    rw [List.getLast?_eq_getElem?, hdl]
    simp [List.getD_eq_getElem?_getD]
  have hdlt : m.depth - 1 < m.down_layers.length := by omega
  have hthread : applyDownStage (m.down_layers.getD (m.depth - 1) default)
      (encodeThread (m.down_layers.take (m.depth - 1)) (Tensor.app m.conv_in x))
      = encodeThread m.down_layers (Tensor.app m.conv_in x) := by
    conv_rhs => rw [← List.take_append_drop (m.depth - 1) m.down_layers]
    rw [List.drop_eq_getElem_cons hdlt]
    have hdrop2 : m.down_layers.drop (m.depth - 1 + 1) = [] := by
      rw [List.drop_eq_nil_iff]
      omega
    rw [hdrop2]
    have hget : m.down_layers[m.depth - 1] =
        m.down_layers.getD (m.depth - 1) default := by
      simp [List.getD_eq_getElem?_getD, List.getElem?_eq_getElem hdlt]
    rw [hget, encodeThread_concat]
  have hotk : encodeOutputs (m.down_layers.take (m.depth - 1))
      (Tensor.app m.conv_in x)
      = (encodeOutputs m.down_layers (Tensor.app m.conv_in x)).dropLast := by
    rw [List.dropLast_eq_take, encodeOutputs_length, hdl, encodeOutputs_take]
  have hotl : (encodeOutputs (m.down_layers.take (m.depth - 1))
      (Tensor.app m.conv_in x)).length = m.depth - 1 := by
    rw [encodeOutputs_length, List.length_take, Nat.min_eq_left hn]
  show Tensor.funAct m.output_act (Tensor.app m.conv_out _) = _
  rw [henc]
  simp only
  rw [hlast, hthread,
    dec_loop m (encodeOutputs (m.down_layers.take (m.depth - 1))
      (Tensor.app m.conv_in x)) hul hotl, hotk]
  rfl

lemma init_ok_inv {bt : String} {ic oc : Nat} {fs : List Nat} {iso : Bool}
    {it : List Bool} {pm am nm : String} {p : Bool} {oa : String} {m : UNet3D}
    (h : UNet3D.init bt ic oc fs iso it pm am nm p oa = Except.ok m) :
    fs.length = it.length ∧ iso = false ∧ 0 < fs.length ∧
    m = UNet3D.mk p oa fs.length
      (Layer.conv3d_norm_act ic (fs.getD 0 0) (1, 5, 5)
        (ScalarOrTriple.scalar 1) (0, 2, 2) pm am nm)
      (Layer.conv3d_norm_act (fs.getD 0 0) oc (1, 5, 5)
        (ScalarOrTriple.scalar 1) (0, 2, 2) pm "none" "none")
      ((List.range fs.length).map (makeDownLayer p fs it bt pm am nm))
      ((List.range' 1 (fs.length - 1)).map (makeUpLayer fs it bt pm am nm)) := by
  unfold UNet3D.init at h
  by_cases h1 : fs.length ≠ it.length
  · rw [if_pos h1] at h
    exact Except.noConfusion h
  rw [if_neg h1] at h
  by_cases h2 : iso = true
  · rw [if_pos h2] at h
    exact Except.noConfusion h
  rw [if_neg h2] at h
  by_cases h3 : ¬(bt = "residual" ∨ bt = "residual_se")
  · rw [if_pos h3] at h
    exact Except.noConfusion h
  rw [if_neg h3] at h
  by_cases h4 : fs.length = 0
  · rw [if_pos h4] at h
    exact Except.noConfusion h
  rw [if_neg h4] at h
  have hiso : iso = false := by simpa using h2
  subst hiso
  injection h with h5
  exact ⟨by omega, rfl, by omega, h5.symm⟩

lemma getD_map_range {α : Type} (f : Nat → α) (n i : Nat) (hi : i < n)
    (d : α) : ((List.range n).map f).getD i d = f i := by
  have hlen : i < ((List.range n).map f).length := by simpa using hi
  rw [List.getD_eq_getElem?_getD, List.getElem?_eq_getElem hlen]
  simp

lemma getD_map_range' {α : Type} (f : Nat → α) (n i : Nat) (hi : i < n)
    (d : α) : ((List.range' 1 n).map f).getD i d = f (1 + i) := by
  have hlen : i < ((List.range' 1 n).map f).length := by simpa using hi
  rw [List.getD_eq_getElem?_getD, List.getElem?_eq_getElem hlen]
  simp

lemma foldl_fst_const {α β γ : Type} (f : α × β → γ → β) (init : α × β)
    (l : List γ) :
    (l.foldl (fun s c => (s.1, f s c)) init).1 = init.1 := by
  induction l generalizing init with
  | nil => rfl
  | cons a l ih => simp [ih]

lemma forwardS_fst (m : UNet3D) (x : Tensor) : (m.forwardS x).1 = m := by
  unfold UNet3D.forwardS
  simp only [foldl_fst_const]

/-- C1: constructing `UNet3D` with `is_isotropic=True` raises: line 54
evaluates `[True for _ in len(isotropy)]`, iterating over an `int`,
which raises `TypeError` before any stage is built — contradicting the
docstring, which promises that all stages become isotropic.  The
evaluation below exhibits the failure at the documented default
configuration with `is_isotropic=True`. -/
theorem unet3d_init_isotropic_raises :
    UNet3D.init "residual" 1 3 [28, 36, 48, 64, 80] true
      [false, false, false, true, true] "replicate" "elu" "bn" false "sigmoid"
      = Except.error (PyError.typeError "argument of type int is not iterable")
    ∧ UNet3D.init "residual" 1 3 [28, 36, 48, 64, 80] false
      [false, false, false, true, true] "replicate" "elu" "bn" false "sigmoid"
      ≠ Except.error (PyError.typeError "argument of type int is not iterable") := by
  exact ⟨rfl, fun hb => Except.noConfusion hb⟩

/-- C2: `UNet2D.__init__` is `def __init__(self): pass`: it accepts none
of the documented configuration options (any keyword raises `TypeError`)
and builds nothing — contradicting its own docstring, which documents
the same options as `UNet3D`. -/
theorem unet2d_init_is_stub :
    UNet2D.initCall ["block_type"]
      = Except.error (PyError.typeError "got an unexpected keyword argument")
    ∧ UNet2D.initCall ["in_channel"]
      = Except.error (PyError.typeError "got an unexpected keyword argument")
    ∧ UNet2D.initCall [] = Except.ok UNet2D.mk := by
  exact ⟨rfl, rfl, rfl⟩

/-- C7: anisotropic stages get kernel `(1,3,3)` with padding `(0,1,1)`
(interior) and `(1,5,5)` with padding `(0,2,2)` (I/O), and downsample
factor `(1,2,2)`; isotropic stages get `(3,3,3)`/`(1,1,1)`, I/O
`(5,5,5)`/`(2,2,2)`, and the uniform factor `2`. -/
theorem kernel_padding_downsample_by_isotropy :
    get_kernal_size false false = ((1, 3, 3), (0, 1, 1))
    ∧ get_kernal_size false true = ((1, 5, 5), (0, 2, 2))
    ∧ get_downsample false = ScalarOrTriple.triple 1 2 2
    ∧ get_kernal_size true false = ((3, 3, 3), (1, 1, 1))
    ∧ get_kernal_size true true = ((5, 5, 5), (2, 2, 2))
    ∧ get_downsample true = ScalarOrTriple.scalar 2 := by
  decide

/-- C9: `_upsample_add` always interpolates with mode `'trilinear'`,
targets the spatial size of the skip tensor `y`, adds the result to `y`,
and sets `align_corners` to true exactly when `pooling` is false and to
false exactly when `pooling` is true. -/
theorem upsample_add_trilinear_align :
    ∀ (m : UNet3D) (x y : Tensor),
      m.upsample_add x y
        = Tensor.add
            (Tensor.interpolate "trilinear" y
              (if m.pooling then false else true) x) y
      ∧ ((if m.pooling then false else true) = true ↔ m.pooling = false)
      ∧ ((if m.pooling then false else true) = false ↔ m.pooling = true) := by
  intro m x y
  refine ⟨rfl, ?_, ?_⟩ <;> cases h : m.pooling <;> simp

/-- C10: the constructor raises `AssertionError` exactly on the length
mismatch `len(filters) != len(isotropy)`; when the lengths agree the
assertion passes and no `AssertionError` is raised. -/
theorem init_assertion_on_length_mismatch (bt : String) (ic oc : Nat)
    (fs : List Nat) (iso : Bool) (it : List Bool) (pm am nm : String)
    (p : Bool) (oa : String) :
    (fs.length ≠ it.length →
      UNet3D.init bt ic oc fs iso it pm am nm p oa
        = Except.error PyError.assertionError)
    ∧ (fs.length = it.length →
      UNet3D.init bt ic oc fs iso it pm am nm p oa
        ≠ Except.error PyError.assertionError) := by
  constructor
  · intro hne
    unfold UNet3D.init
    rw [if_pos hne]
  · intro heq hbad
    unfold UNet3D.init at hbad
    rw [if_neg (fun hn => hn heq)] at hbad
    split_ifs at hbad <;> simp_all

/-- C10 witness: at `filters=[28]` with empty `isotropy` the assertion
fires; with `isotropy=[False]` it passes. -/
theorem init_assertion_witness :
    UNet3D.init "residual" 1 3 [28] false [] "replicate" "elu" "bn"
      false "sigmoid" = Except.error PyError.assertionError
    ∧ UNet3D.init "residual" 1 3 [28] false [false] "replicate" "elu" "bn"
      false "sigmoid" ≠ Except.error PyError.assertionError := by
  exact ⟨(init_assertion_on_length_mismatch "residual" 1 3 [28] false []
      "replicate" "elu" "bn" false "sigmoid").1 (by decide),
    (init_assertion_on_length_mismatch "residual" 1 3 [28] false [false]
      "replicate" "elu" "bn" false "sigmoid").2 (by decide)⟩

/-- C3: for every constructed `UNet3D` and every input, `forward(x)` is
the sequential composition `conv_in`, the encoder stages in ascending
order (storing the outputs of all stages but the bottleneck), the
decoder stages from index `depth-2` down to `0` — each applying its
convolution, the upsample-and-add with the stored encoder output of the
same index, and its block — then `conv_out` and the named output
activation, as captured by `forwardSpec`. -/
theorem forward_is_sequential_composition (bt : String) (ic oc : Nat)
    (fs : List Nat) (iso : Bool) (it : List Bool) (pm am nm : String)
    (p : Bool) (oa : String) (m : UNet3D)
    (h : UNet3D.init bt ic oc fs iso it pm am nm p oa = Except.ok m)
    (x : Tensor) :
    m.forward x = forwardSpec m x := by
  obtain ⟨hlen, hiso, hpos, hm⟩ := init_ok_inv h
  subst hm
  apply forward_eq_general <;> simp
  exact hpos

/-- C3 witness: a concrete two-stage construction on a concrete input. -/
theorem forward_is_sequential_composition_witness :
    UNet3D.init "residual" 1 3 [28, 36] false [false, true] "replicate"
      "elu" "bn" false "sigmoid" = Except.ok demoModel
    ∧ demoModel.forward (Tensor.input 0)
        = forwardSpec demoModel (Tensor.input 0) :=
  ⟨rfl, forward_is_sequential_composition "residual" 1 3 [28, 36] false
    [false, true] "replicate" "elu" "bn" false "sigmoid" demoModel rfl
    (Tensor.input 0)⟩

/-- C4: after construction `down_layers` has exactly `len(filters)`
stages; stage `i` is (downsample-or-identity, `conv3d_norm_act` from
`filters[max(0,i-1)]` to `filters[i]` channels, residual block on
`filters[i]` channels); stage `0` has an identity downsample and stride
`1`. -/
theorem down_layers_structure (bt : String) (ic oc : Nat) (fs : List Nat)
    (iso : Bool) (it : List Bool) (pm am nm : String) (p : Bool)
    (oa : String) (m : UNet3D)
    (h : UNet3D.init bt ic oc fs iso it pm am nm p oa = Except.ok m) :
    m.down_layers.length = fs.length
    ∧ (∀ i, i < fs.length →
        (m.down_layers.getD i default).conv.convChannels
            = some (fs.getD (max 0 (i - 1)) 0, fs.getD i 0)
        ∧ (m.down_layers.getD i default).block.blockChannels
            = some (bt, fs.getD i 0, fs.getD i 0)
        ∧ ((m.down_layers.getD i default).pool = Layer.identity
            ∨ ∃ k s, (m.down_layers.getD i default).pool
                = Layer.maxPool3d k s))
    ∧ (m.down_layers.getD 0 default).pool = Layer.identity
    ∧ (m.down_layers.getD 0 default).conv.convStride
        = some (ScalarOrTriple.scalar 1) := by
  obtain ⟨hlen, hiso, hpos, hm⟩ := init_ok_inv h
  subst hm
  refine ⟨by simp, ?_, ?_, ?_⟩
  · intro i hi
    simp only [getD_map_range _ fs.length i hi]
    refine ⟨rfl, rfl, ?_⟩
    rcases Nat.eq_zero_or_pos i with hi0 | hipos
    · subst hi0
      exact Or.inl (by simp [makeDownLayer, make_pooling_layer])
    · cases hp : p with
      | false => exact Or.inl (by simp [makeDownLayer, make_pooling_layer])
      | true =>
        have hni : ¬ (i - 1 = i) := by omega
        exact Or.inr ⟨get_downsample (it.getD i false),
          get_downsample (it.getD i false),
          by simp [makeDownLayer, make_pooling_layer, hni]⟩
  · simp only [getD_map_range _ fs.length 0 hpos]
    simp [makeDownLayer, make_pooling_layer]
  · simp only [getD_map_range _ fs.length 0 hpos]
    simp [makeDownLayer, get_stride, Layer.convStride]

/-- C4 witness: the two-stage construction, checked at stages 0 and 1. -/
theorem down_layers_structure_witness :
    UNet3D.init "residual" 1 3 [28, 36] false [false, true] "replicate"
      "elu" "bn" false "sigmoid" = Except.ok demoModel
    ∧ demoModel.down_layers.length = 2
    ∧ (demoModel.down_layers.getD 1 default).conv.convChannels
        = some (28, 36)
    ∧ (demoModel.down_layers.getD 0 default).pool = Layer.identity
    ∧ (demoModel.down_layers.getD 0 default).conv.convStride
        = some (ScalarOrTriple.scalar 1) := by
  have h := down_layers_structure "residual" 1 3 [28, 36] false
    [false, true] "replicate" "elu" "bn" false "sigmoid" demoModel rfl
  exact ⟨rfl, h.1, (h.2.1 1 (by decide)).1, h.2.2.1, h.2.2.2⟩

/-- C5: after construction `up_layers` has exactly `len(filters)-1`
stages; stage `j-1` (for `j` in `1..len(filters)-1`) is
(`conv3d_norm_act` from `filters[j]` to `filters[j-1]` channels,
residual block on `filters[j-1]` channels); and the skip connection
interpolates the decoder feature map trilinearly to the spatial size of
the stored encoder output and adds (not concatenates) the two. -/
theorem up_layers_structure_and_skip (bt : String) (ic oc : Nat)
    (fs : List Nat) (iso : Bool) (it : List Bool) (pm am nm : String)
    (p : Bool) (oa : String) (m : UNet3D)
    (h : UNet3D.init bt ic oc fs iso it pm am nm p oa = Except.ok m) :
    m.up_layers.length = fs.length - 1
    ∧ (∀ j, 1 ≤ j → j < fs.length →
        (m.up_layers.getD (j - 1) default).conv.convChannels
            = some (fs.getD j 0, fs.getD (j - 1) 0)
        ∧ (m.up_layers.getD (j - 1) default).block.blockChannels
            = some (bt, fs.getD (j - 1) 0, fs.getD (j - 1) 0))
    ∧ (∀ x y : Tensor,
        m.upsample_add x y
          = Tensor.add
              (Tensor.interpolate "trilinear" y
                (if m.pooling then false else true) x) y) := by
  obtain ⟨hlen, hiso, hpos, hm⟩ := init_ok_inv h
  subst hm
  refine ⟨by simp, ?_, fun x y => rfl⟩
  intro j hj1 hj2
  have hjlt : j - 1 < fs.length - 1 := by omega
  have hj : 1 + (j - 1) = j := by omega
  simp only [getD_map_range' _ (fs.length - 1) (j - 1) hjlt, hj]
  exact ⟨rfl, rfl⟩

/-- C5 witness: the two-stage construction at `j = 1`, and the
upsample-add shape at concrete tensors. -/
theorem up_layers_structure_and_skip_witness :
    UNet3D.init "residual" 1 3 [28, 36] false [false, true] "replicate"
      "elu" "bn" false "sigmoid" = Except.ok demoModel
    ∧ demoModel.up_layers.length = 1
    ∧ (demoModel.up_layers.getD 0 default).conv.convChannels
        = some (36, 28)
    ∧ demoModel.upsample_add (Tensor.input 0) (Tensor.input 1)
        = Tensor.add
            (Tensor.interpolate "trilinear" (Tensor.input 1)
              (if demoModel.pooling then false else true) (Tensor.input 0))
            (Tensor.input 1) := by
  have h := up_layers_structure_and_skip "residual" 1 3 [28, 36] false
    [false, true] "replicate" "elu" "bn" false "sigmoid" demoModel rfl
  exact ⟨rfl, h.1, (h.2.1 1 (by decide) (by decide)).1,
    h.2.2 (Tensor.input 0) (Tensor.input 1)⟩

/-- C6: for every constructed `UNet3D`, exactly one downsampling
mechanism is active per encoder stage `i ≥ 1`: with `pooling=True` the
stage starts with `MaxPool3d` whose kernel and stride both equal the
downsample factor and the stage convolution has stride 1; with
`pooling=False` the stage starts with an identity layer and the
convolution's stride is the downsample factor.  Stage 0 has the
identity layer and stride 1 under both settings. -/
theorem downsample_mechanism_exclusive (bt : String) (ic oc : Nat)
    (fs : List Nat) (iso : Bool) (it : List Bool) (pm am nm : String)
    (p : Bool) (oa : String) (m : UNet3D)
    (h : UNet3D.init bt ic oc fs iso it pm am nm p oa = Except.ok m) :
    (∀ i, 1 ≤ i → i < fs.length →
      (p = true →
          (m.down_layers.getD i default).pool
              = Layer.maxPool3d (get_downsample (it.getD i false))
                  (get_downsample (it.getD i false))
          ∧ (m.down_layers.getD i default).conv.convStride
              = some (ScalarOrTriple.scalar 1))
      ∧ (p = false →
          (m.down_layers.getD i default).pool = Layer.identity
          ∧ (m.down_layers.getD i default).conv.convStride
              = some (get_downsample (it.getD i false))))
    ∧ (m.down_layers.getD 0 default).pool = Layer.identity
    ∧ (m.down_layers.getD 0 default).conv.convStride
        = some (ScalarOrTriple.scalar 1) := by
  obtain ⟨hlen, hiso, hpos, hm⟩ := init_ok_inv h
  subst hm
  refine ⟨?_, ?_, ?_⟩
  · intro i hi1 hi2
    simp only [getD_map_range _ fs.length i hi2]
    have hni : ¬ (i - 1 = i) := by omega
    constructor
    · intro hp
      subst hp
      constructor
      · simp [makeDownLayer, make_pooling_layer, hni]
      · simp [makeDownLayer, get_stride, Layer.convStride]
    · intro hp
      subst hp
      constructor
      · simp [makeDownLayer, make_pooling_layer]
      · simp [makeDownLayer, get_stride, Layer.convStride, hni]
  · simp only [getD_map_range _ fs.length 0 hpos]
    simp [makeDownLayer, make_pooling_layer]
  · simp only [getD_map_range _ fs.length 0 hpos]
    simp [makeDownLayer, get_stride, Layer.convStride]

/-- C6 witness: pooling and strided constructions checked at stage 1
and stage 0. -/
theorem downsample_mechanism_exclusive_witness :
    UNet3D.init "residual_se" 2 3 [28, 36, 48] false [false, false, true]
      "zeros" "relu" "in" true "softmax" = Except.ok demoModelPool
    ∧ UNet3D.init "residual" 1 3 [28, 36] false [false, true] "replicate"
      "elu" "bn" false "sigmoid" = Except.ok demoModel
    ∧ (demoModelPool.down_layers.getD 1 default).pool
        = Layer.maxPool3d (ScalarOrTriple.triple 1 2 2)
            (ScalarOrTriple.triple 1 2 2)
    ∧ (demoModelPool.down_layers.getD 1 default).conv.convStride
        = some (ScalarOrTriple.scalar 1)
    ∧ (demoModel.down_layers.getD 1 default).pool = Layer.identity
    ∧ (demoModel.down_layers.getD 1 default).conv.convStride
        = some (ScalarOrTriple.scalar 2)
    ∧ (demoModel.down_layers.getD 0 default).pool = Layer.identity := by
  have hp := downsample_mechanism_exclusive "residual_se" 2 3 [28, 36, 48]
    false [false, false, true] "zeros" "relu" "in" true "softmax"
    demoModelPool rfl
  have hs := downsample_mechanism_exclusive "residual" 1 3 [28, 36] false
    [false, true] "replicate" "elu" "bn" false "sigmoid" demoModel rfl
  have hp1 := (hp.1 1 (by decide) (by decide)).1 rfl
  have hs1 := (hs.1 1 (by decide) (by decide)).2 rfl
  exact ⟨rfl, rfl, hp1.1, hp1.2, hs1.1, hs1.2, hs.2.1⟩

/-- C8: `forward` leaves the model's structure unchanged: every field of
the model threaded through the statements of `forward` is identical
before and after the call. -/
theorem forward_preserves_structure (m : UNet3D) (x : Tensor) :
    (m.forwardS x).1.depth = m.depth
    ∧ (m.forwardS x).1.pooling = m.pooling
    ∧ (m.forwardS x).1.output_act = m.output_act
    ∧ (m.forwardS x).1.conv_in = m.conv_in
    ∧ (m.forwardS x).1.conv_out = m.conv_out
    ∧ (m.forwardS x).1.down_layers = m.down_layers
    ∧ (m.forwardS x).1.up_layers = m.up_layers := by
  rw [forwardS_fst]
  exact ⟨rfl, rfl, rfl, rfl, rfl, rfl, rfl⟩

end PytorchConnectomics
